import Mathlib

/-!
Verification of the Kanadia immigration decision engine (`papers.py`).

The Python program operates on JSON-derived nested dictionaries whose
values are strings or further dictionaries (other JSON values are dropped
by the normalizer `convert_to_lower`).  We embed such values as the
mutual inductive types `PyVal` / `PyDict`.  A `PyVal.other b` stands for
any non-string, non-dict value whose Python truthiness is `b`.

Fallible Python code (dictionary indexing `d[k]`, attribute access on a
non-dict, `int(...)` on a non-numeric string, `datetime.replace` with an
invalid resulting date) is embedded with `Option`: a `none` result means
the Python code raises an exception at that point.  Evaluation order of
the embedded code follows the source line by line, so the embedding
raises exactly where the source does.

Modelling notes:
- Python `str.lower` is embedded as `pyLower` (ASCII case mapping via
  `Char.toLower`; non-ASCII case mappings are out of scope).
- The regex classes `\d` and `\w` are embedded as ASCII digits and ASCII
  word characters (`Char.isDigit`, `Char.isAlphanum` or underscore);
  non-ASCII members of these Unicode classes are out of scope.
- `datetime.datetime.now()` is passed in explicitly as a `DateTime`
  argument `now`, so time-dependence becomes visible in the statements.
- Non-string, non-dict values used as dictionary keys are embedded as
  failures (in Python some of them would merely miss every string key);
  every theorem below restricts these positions to strings or absence.
-/

namespace Papers

mutual
/-- A JSON-derived Python value: a string, a nested dict, or any other
value (number, list, boolean, null), abstracted to its truthiness. -/
inductive PyVal : Type where
  | str : String → PyVal
  | dict : PyDict → PyVal
  | other : Bool → PyVal
  deriving DecidableEq

/-- A Python dictionary with string keys, as an ordered association
list; `json.load` and the dict-building code of `papers.py` never
produce duplicate keys. -/
inductive PyDict : Type where
  | nil : PyDict
  | cons : String → PyVal → PyDict → PyDict
  deriving DecidableEq
end

/-- Python `d.get(key)` / `d[key]`: the value at `key`, if present. -/
def PyDict.get? : PyDict → String → Option PyVal
  | .nil, _ => none
  | .cons k v rest, key => if k = key then some v else rest.get? key

/-- Python `d[key] = v`: overwrite the entry for `key` in place if it
exists, otherwise append a new entry at the end. -/
def PyDict.set : PyDict → String → PyVal → PyDict
  | .nil, k, v => .cons k v .nil
  | .cons k' v' rest, k, v =>
    if k' = k then .cons k v rest else .cons k' v' (rest.set k v)

/-- Concatenation of the entry lists of two dicts. -/
def PyDict.append : PyDict → PyDict → PyDict
  | .nil, d => d
  | .cons k v rest, d => .cons k v (rest.append d)

/-- Python truthiness of a value: a string is truthy iff non-empty, a
dict iff non-empty; `other` carries its truthiness. -/
def PyVal.truthy : PyVal → Bool
  | .str s => s ≠ ""
  | .dict .nil => false
  | .dict (.cons _ _ _) => true
  | .other b => b

/-- Python `v == lit` for a string literal `lit`: string comparison, and
`False` when `v` is not a string. -/
def PyVal.eqStr : PyVal → String → Bool
  | .str s, t => s = t
  | _, _ => false

/-- Python `str.lower`, embedded as ASCII lowercasing of each character
(kernel-reducible, unlike `String.toLower`). -/
def pyLower (s : String) : String := ⟨s.data.map Char.toLower⟩

/-- Worker for `convert_to_lower` (`papers.py` lines 90-107): the Python
function builds a new dict `new_d` (here the accumulator `acc`) by
iterating over the items of `d` in order, lowercasing keys and string
values, recursing into dict values, and dropping all other values. -/
def convert_to_lower_aux : PyDict → PyDict → PyDict
  | acc, .nil => acc
  | acc, .cons k (.str s) rest =>
      convert_to_lower_aux (acc.set (pyLower k) (.str (pyLower s))) rest
  | acc, .cons k (.dict d) rest =>
      convert_to_lower_aux (acc.set (pyLower k) (.dict (convert_to_lower_aux .nil d))) rest
  | acc, .cons _ (.other _) rest => convert_to_lower_aux acc rest
termination_by structural acc l => l

/-- `convert_to_lower` (`papers.py` lines 90-107). -/
def convert_to_lower (d : PyDict) : PyDict := convert_to_lower_aux PyDict.nil d

/-! ## Dates and times

`datetime.datetime` values, as used by `is_valid_visa`.  Comparison of
two datetimes is comparison of the mixed-radix key `DateTime.key`, which
on valid datetimes coincides with lexicographic comparison of the
fields, i.e. with chronological order. -/

/-- Proleptic Gregorian leap year, as used by Python `datetime`. -/
def isLeap (y : Nat) : Bool := y % 4 == 0 && (y % 100 != 0 || y % 400 == 0)

/-- Number of days of month `m` of year `y` (Python `datetime` calendar). -/
def daysInMonth (y m : Nat) : Nat :=
  if m = 2 then (if isLeap y then 29 else 28)
  else if m = 4 ∨ m = 6 ∨ m = 9 ∨ m = 11 then 30
  else 31

/-- A `datetime.datetime` value (microsecond precision). -/
structure DateTime where
  year : Nat
  month : Nat
  day : Nat
  hour : Nat
  minute : Nat
  second : Nat
  usec : Nat
  deriving DecidableEq

/-- The field ranges `datetime.datetime` enforces on construction. -/
def DateTime.Valid (t : DateTime) : Prop :=
  1 ≤ t.year ∧ t.year ≤ 9999 ∧ 1 ≤ t.month ∧ t.month ≤ 12 ∧
  1 ≤ t.day ∧ t.day ≤ daysInMonth t.year t.month ∧
  t.hour ≤ 23 ∧ t.minute ≤ 59 ∧ t.second ≤ 59 ∧ t.usec ≤ 999999

instance (t : DateTime) : Decidable t.Valid := by
  unfold DateTime.Valid; infer_instance

/-- Mixed-radix encoding of a datetime; on valid datetimes `key` is
strictly monotone in chronological (lexicographic) order, so comparing
keys is comparing datetimes. -/
def DateTime.key (t : DateTime) : Nat :=
  (((((t.year * 13 + t.month) * 32 + t.day) * 24 + t.hour) * 60 +
      t.minute) * 60 + t.second) * 1000000 + t.usec

/-- Python `t.replace(year=y)` (`papers.py` line 236): rebuilds the
datetime with the new year, re-validating all fields; in particular it
raises `ValueError` (here `none`) when the original month/day do not
form a valid date in year `y` — e.g. February 29 mapped to a non-leap
year — or when `y` is outside `1..9999`. -/
def DateTime.replaceYear (t : DateTime) (y : Nat) : Option DateTime :=
  if 1 ≤ y ∧ y ≤ 9999 ∧ 1 ≤ t.month ∧ t.month ≤ 12 ∧
     1 ≤ t.day ∧ t.day ≤ daysInMonth y t.month ∧
     t.hour ≤ 23 ∧ t.minute ≤ 59 ∧ t.second ≤ 59 ∧ t.usec ≤ 999999
  then some { t with year := y } else none

/-- The datetime `strptime(s, "%Y-%m-%d")` yields: date at midnight. -/
def midnight (y m d : Nat) : DateTime := ⟨y, m, d, 0, 0, 0, 0⟩

/-! ## Format validators -/

/-- Numeric value of a digit string (most significant digit first). -/
def natOfDigits (l : List Char) : Nat :=
  l.foldl (fun n c => n * 10 + (c.toNat - 48)) 0

/-- The date parser inside `datetime.datetime.strptime(s, "%Y-%m-%d")`
(CPython `_strptime`): the format maps to the anchored pattern
`(\d{4})-(1[0-2]|0[1-9]|[1-9])-(3[01]|[12]\d|0[1-9]|[1-9])` which must
consume the whole string, and the matched numbers must then form a
valid `datetime.date`, i.e. `1 <= year` and `day <= daysInMonth`.
The month and day alternations accept exactly the digit strings of
length 1 or 2 with values `1..12` resp. `1..31`. -/
def parse3 (l : List Char) : Option (Nat × Nat × Nat) :=
  let ys := l.take 4
  match l.drop 4 with
  | '-' :: rest =>
    match rest.span (· != '-') with
    | (ms, '-' :: ds) =>
      let y := natOfDigits ys
      let m := natOfDigits ms
      let d := natOfDigits ds
      if ys.length = 4 ∧ ys.all Char.isDigit ∧
         1 ≤ ms.length ∧ ms.length ≤ 2 ∧ ms.all Char.isDigit ∧
         1 ≤ m ∧ m ≤ 12 ∧
         1 ≤ ds.length ∧ ds.length ≤ 2 ∧ ds.all Char.isDigit ∧
         1 ≤ d ∧ 1 ≤ y ∧ d ≤ daysInMonth y m
      then some (y, m, d) else none
    | _ => none
  | _ => none

/-- `valid_date_format` (`papers.py` lines 264-275): true iff
`strptime(s, "%Y-%m-%d")` succeeds; the `except ValueError` returns
`False` on every parse failure. -/
def valid_date_format (s : String) : Bool := (parse3 s.data).isSome

/-- ASCII embedding of the regex class `\w`. -/
def isWordChar (c : Char) : Bool := c.isAlphanum || c == '_'

/-- Split a character list at every dash (the dash separators of the
visa/passport patterns; `\w` never matches a dash). -/
def splitDash : List Char → List (List Char)
  | [] => [[]]
  | c :: rest =>
    if c = '-' then [] :: splitDash rest
    else
      match splitDash rest with
      | [] => [[c]]
      | p :: ps => (c :: p) :: ps

/-- `n` dash-separated groups of exactly five word characters: the core
of the patterns `^\w{5}-\w{5}$` (`n = 2`) and
`^\w{5}-\w{5}-\w{5}-\w{5}-\w{5}$` (`n = 5`). -/
def wordGroups (n : Nat) (l : List Char) : Bool :=
  let ps := splitDash l
  ps.length == n && ps.all (fun p => p.length == 5 && p.all isWordChar)

/-- Python `re.match` with an `^...$`-anchored pattern: the pattern must
match the whole string, except that `$` also matches just before a
single trailing newline. -/
def pyFullMatchGroups (n : Nat) (s : String) : Bool :=
  wordGroups n s.data ||
    (match s.data.getLast? with
     | some '\n' => wordGroups n s.data.dropLast
     | _ => false)

/-- `valid_visa_format` (`papers.py` lines 242-250): match against
`^\w{5}-\w{5}$`. -/
def valid_visa_format (s : String) : Bool := pyFullMatchGroups 2 s

/-- `valid_passport_format` (`papers.py` lines 253-261): match against
`^\w{5}-\w{5}-\w{5}-\w{5}-\w{5}$`. -/
def valid_passport_format (s : String) : Bool := pyFullMatchGroups 5 s

/-- Python `int(s)` on a string (`papers.py` lines 206-207): strips
whitespace, then an optional sign followed by at least one digit;
raises `ValueError` (here `none`) otherwise. -/
def pyInt (s : String) : Option Int :=
  let core := ((s.data.dropWhile Char.isWhitespace).reverse.dropWhile
    Char.isWhitespace).reverse
  match core with
  | [] => none
  | '+' :: ds =>
    if 1 ≤ ds.length ∧ ds.all Char.isDigit then some (natOfDigits ds : Nat) else none
  | '-' :: ds =>
    if 1 ≤ ds.length ∧ ds.all Char.isDigit then some (-(natOfDigits ds : Nat) : Int) else none
  | ds => if ds.all Char.isDigit then some (natOfDigits ds : Nat) else none

/-! ## Rule predicates

Each predicate returns `Option Bool`: `some b` is the Boolean result,
`none` means the Python code raises an exception at the corresponding
point.  `C` is the global `COUNTRIES`, `WP`/`WN` the sets
`WATCH_PASSPORTS`/`WATCH_NAMES` (as lists; only membership is used). -/

/-- `record.get(fld, {}).get("country", "")` (`papers.py` lines
148-149): default `""` when `fld` or the nested `country` is absent;
raises (`none`) when the value of `fld` is neither a dict nor absent. -/
def getCountryOf (record : PyDict) (fld : String) : Option PyVal :=
  match record.get? fld with
  | none => some (.str "")
  | some (.dict d) => some ((d.get? "country").getD (.str ""))
  | some _ => none

/-- `COUNTRIES.get(c, {}).get("medical_advisory", "")` (`papers.py`
line 153): default `""` for an unknown code or a missing advisory
field; raises (`none`) when the key is not a string or the table entry
is not a dict. -/
def advisoryOf (C : PyDict) : PyVal → Option PyVal
  | .str c =>
    match C.get? c with
    | none => some (.str "")
    | some (.dict e) => some ((e.get? "medical_advisory").getD (.str ""))
    | some _ => none
  | _ => none

/-- `is_quarantine` (`papers.py` lines 136-156): true iff the
medical-advisory entry of the `from` country or of the `via` country is
truthy. -/
def is_quarantine (C : PyDict) (record : PyDict) : Option Bool :=
  match getCountryOf record "from" with
  | none => none
  | some fc =>
    match getCountryOf record "via" with
    | none => none
    | some vc =>
      match advisoryOf C fc with
      | none => none
      | some fa =>
        match advisoryOf C vc with
        | none => none
        | some va => some (fa.truthy || va.truthy)

/-- `REQUIRED_FIELDS` (`papers.py` lines 21-22). -/
def REQUIRED_FIELDS : List String :=
  ["passport", "first_name", "last_name", "birth_date", "home",
   "entry_reason", "from"]

/-- `requires_visa` (`papers.py` lines 194-215).  `record["home"]["country"]`
and `record["entry_reason"]` are direct indexing and raise on absence;
`COUNTRIES[home]` raises for a home code absent from the table; the two
`int(...)` conversions run before the reason is examined. -/
def requires_visa (C : PyDict) (record : PyDict) : Option Bool :=
  match record.get? "home" with
  | some (.dict h) =>
    match h.get? "country" with
    | some home =>
      match record.get? "entry_reason" with
      | some reason =>
        if home.eqStr "kan" then some false
        else
          match home with
          | .str hs =>
            match C.get? hs with
            | some (.dict ce) =>
              match ce.get? "visitor_visa_required" with
              | some (.str vs) =>
                match pyInt vs with
                | some vv =>
                  match ce.get? "transit_visa_required" with
                  | some (.str ts) =>
                    match pyInt ts with
                    | some tv =>
                      some ((reason.eqStr "visit" && vv != 0) ||
                            (reason.eqStr "transit" && tv != 0))
                    | none => none
                  | _ => none
                | none => none
              | _ => none
            | _ => none
          | _ => none
      | none => none
    | none => none
  | _ => none

/-- `is_valid_visa` (`papers.py` lines 218-239): fetch
`record.get("visa", {})` and its `code`/`date` with default `""`; if
either format check fails, `False`; otherwise compute
`now.replace(year=now.year-2)` (which may raise, propagated as `none`)
and compare the parsed visa date at midnight against it. -/
def is_valid_visa (now : DateTime) (record : PyDict) : Option Bool :=
  match
    (match record.get? "visa" with
     | none => some PyDict.nil
     | some (.dict d) => some d
     | some _ => none) with
  | none => none
  | some visa =>
    match (visa.get? "code").getD (.str "") with
    | .str code =>
      if valid_visa_format code then
        match (visa.get? "date").getD (.str "") with
        | .str date =>
          if valid_date_format date then
            match now.replaceYear (now.year - 2) with
            | none => none
            | some tya =>
              match parse3 date.data with
              | some (y, m, d) => some (tya.key ≤ (midnight y m d).key)
              | none => none
          else some false
        | _ => none
      else some false
    | _ => none

/-- `is_reject` (`papers.py` lines 159-174): first the completeness
check over `REQUIRED_FIELDS` (truthiness of `record.get(field, "")`),
then `requires_visa(record) and not is_valid_visa(record)` with Python
short-circuiting. -/
def is_reject (C : PyDict) (now : DateTime) (record : PyDict) : Option Bool :=
  if ¬ (REQUIRED_FIELDS.all fun f => ((record.get? f).getD (.str "")).truthy)
  then some true
  else
    match requires_visa C record with
    | none => none
    | some rv =>
      if rv then
        match is_valid_visa now record with
        | none => none
        | some vv => some (!vv)
      else some false

/-- `is_secondary` (`papers.py` lines 177-191): `record["passport"]`,
`record["first_name"]`, `record["last_name"]` are direct indexing and
raise on absence (and `.lower()`/`join` raise on non-strings); then
watchlist membership of the lowered passport or full name. -/
def is_secondary (WP WN : List String) (record : PyDict) : Option Bool :=
  match record.get? "passport" with
  | some (.str p) =>
    match record.get? "first_name", record.get? "last_name" with
    | some (.str f), some (.str l) =>
      some (WP.contains (pyLower p) || WN.contains (pyLower (f ++ " " ++ l)))
    | _, _ => none
  | _ => none

/-! ## Decision engine -/

/-- `Option`-valued `mapM`, written out so that it unfolds by
structural recursion: the first `none` (Python exception) aborts. -/
def optMapM (f : α → Option β) : List α → Option (List β)
  | [] => some []
  | a :: as =>
    match f a with
    | none => none
    | some b =>
      match optMapM f as with
      | none => none
      | some bs => some (b :: bs)

/-- `set_global_vars` (`papers.py` lines 110-133) minus the file I/O:
normalize the country table and the watchlist, then collect the
watchlist passports and the joined `"first last"` names; indexing a
watchlist entry without the needed string fields raises. -/
def set_global_vars (watchlist : List PyDict) (countries : PyDict) :
    Option (PyDict × List String × List String) :=
  let C := convert_to_lower countries
  let wl := watchlist.map convert_to_lower
  match optMapM (fun w =>
      match w.get? "passport" with
      | some (.str p) => some p
      | _ => none) wl with
  | none => none
  | some WP =>
    match optMapM (fun w =>
        match w.get? "first_name", w.get? "last_name" with
        | some (.str f), some (.str l) => some (f ++ " " ++ l)
        | _, _ => none) wl with
    | none => none
    | some WN => some (C, WP, WN)

/-- The per-record loop body of `decide` (`papers.py` lines 74-85):
try `is_quarantine`, `is_reject`, `is_secondary` in that order, first
match wins, `"Accept"` otherwise. -/
def decideRecord (C : PyDict) (WP WN : List String) (now : DateTime)
    (record : PyDict) : Option String :=
  match is_quarantine C record with
  | none => none
  | some true => some "Quarantine"
  | some false =>
    match is_reject C now record with
    | none => none
    | some true => some "Reject"
    | some false =>
      match is_secondary WP WN record with
      | none => none
      | some true => some "Secondary"
      | some false => some "Accept"

/-- `decide` (`papers.py` lines 45-87) minus the file I/O: normalize
each record, build the reference data, then label the records in
order.  The clock reading `datetime.datetime.now()` is the explicit
argument `now`. -/
def decide (records watchlist : List PyDict) (countries : PyDict)
    (now : DateTime) : Option (List String) :=
  let rs := records.map convert_to_lower
  match set_global_vars watchlist countries with
  | none => none
  | some (C, WP, WN) => optMapM (decideRecord C WP WN now) rs

/-! ## Basic dictionary lemmas -/

/-- Structural induction over a dict, with the values left opaque. -/
theorem PyDict.induction {motive : PyDict → Prop} (nil : motive .nil)
    (cons : ∀ k v rest, motive rest → motive (.cons k v rest)) :
    ∀ d, motive d
  | .nil => nil
  | .cons k v rest => cons k v rest (PyDict.induction nil cons rest)

theorem PyDict.get?_set_ne (d : PyDict) (k k' : String) (v : PyVal)
    (h : k ≠ k') : (d.set k v).get? k' = d.get? k' := by
  induction d using PyDict.induction with
  | nil => simp [PyDict.set, PyDict.get?, h]
  | cons k₀ v₀ rest ih =>
    by_cases hk : k₀ = k
    · subst hk
      simp [PyDict.set, PyDict.get?, h]
    · simp [PyDict.set, PyDict.get?, hk, ih]

theorem PyDict.get?_append (a b : PyDict) (k : String) :
    (a.append b).get? k =
      match a.get? k with
      | some v => some v
      | none => b.get? k := by
  induction a using PyDict.induction with
  | nil => simp [PyDict.append, PyDict.get?]
  | cons k₀ v₀ rest ih =>
    by_cases hk : k₀ = k
    · simp [PyDict.append, PyDict.get?, hk]
    · simp [PyDict.append, PyDict.get?, hk, ih]

theorem PyDict.append_nil (d : PyDict) : d.append .nil = d := by
  induction d using PyDict.induction with
  | nil => rfl
  | cons k v rest ih => simp [PyDict.append, ih]

theorem PyDict.append_assoc (a b c : PyDict) :
    (a.append b).append c = a.append (b.append c) := by
  induction a using PyDict.induction with
  | nil => rfl
  | cons k v rest ih => simp [PyDict.append, ih]

theorem PyDict.set_eq_append (d : PyDict) (k : String) (v : PyVal)
    (h : d.get? k = none) : d.set k v = d.append (.cons k v .nil) := by
  induction d using PyDict.induction with
  | nil => rfl
  | cons k₀ v₀ rest ih =>
    simp only [PyDict.get?] at h
    by_cases hk : k₀ = k
    · simp [hk] at h
    · simp only [hk, if_false] at h
      simp [PyDict.set, PyDict.append, hk, ih h]

/-! ## Idempotence of the normalizer -/

theorem char_toNat_ofNat_valid (n : Nat) (h : n.isValidChar) :
    (Char.ofNat n).toNat = n := by
  rw [Char.ofNat, dif_pos h]; rfl

theorem char_toLower_toLower (c : Char) : c.toLower.toLower = c.toLower := by
  unfold Char.toLower
  by_cases h : c.toNat ≥ 65 ∧ c.toNat ≤ 90
  · rw [if_pos h]
    have hv : (c.toNat + 32).isValidChar := Or.inl (by omega)
    have ht : (Char.ofNat (c.toNat + 32)).toNat = c.toNat + 32 :=
      char_toNat_ofNat_valid _ hv
    rw [if_neg (by omega)]
  · rw [if_neg h, if_neg h]

theorem pyLower_pyLower (s : String) : pyLower (pyLower s) = pyLower s := by
  simp only [pyLower, List.map_map]
  apply congrArg
  apply List.map_congr_left
  intro c _
  exact char_toLower_toLower c

mutual
/-- A value in the image of the normalizer: a lowercase-fixed string or
a normal dict (no `other` values survive normalization). -/
def NormalV : PyVal → Prop
  | .str s => pyLower s = s
  | .dict d => NormalD d
  | .other _ => False
termination_by structural v => v

/-- A dict in the image of the normalizer: lowercase-fixed, pairwise
distinct keys and normal values. -/
def NormalD : PyDict → Prop
  | .nil => True
  | .cons k v rest => pyLower k = k ∧ NormalV v ∧ rest.get? k = none ∧ NormalD rest
termination_by structural d => d
end

theorem normalD_set (d : PyDict) (k : String) (v : PyVal)
    (hk : pyLower k = k) (hv : NormalV v) :
    NormalD d → NormalD (d.set k v) := by
  induction d using PyDict.induction with
  | nil =>
    intro _
    simp only [PyDict.set, NormalD]
    exact ⟨hk, hv, rfl, trivial⟩
  | cons k₀ v₀ rest ih =>
    intro hd
    simp only [NormalD] at hd
    obtain ⟨hk₀, hv₀, hnone, hrest⟩ := hd
    by_cases he : k₀ = k
    · subst he
      simp only [PyDict.set, if_pos rfl, NormalD]
      exact ⟨hk, hv, hnone, hrest⟩
    · simp only [PyDict.set, if_neg he, NormalD]
      refine ⟨hk₀, hv₀, ?_, ih hrest⟩
      rw [PyDict.get?_set_ne _ _ _ _ (fun h => he h.symm)]
      exact hnone

theorem normalD_convert_aux (acc l : PyDict) :
    NormalD acc → NormalD (convert_to_lower_aux acc l) := by
  induction acc, l using convert_to_lower_aux.induct with
  | case1 acc => exact id
  | case2 acc k s rest ih =>
    intro hacc
    rw [convert_to_lower_aux]
    refine ih (normalD_set _ _ _ (pyLower_pyLower k) ?_ hacc)
    show pyLower (pyLower s) = pyLower s
    exact pyLower_pyLower s
  | case3 acc k d rest ih_inner ih =>
    intro hacc
    rw [convert_to_lower_aux]
    refine ih (normalD_set _ _ _ (pyLower_pyLower k) ?_ hacc)
    show NormalD (convert_to_lower_aux .nil d)
    exact ih_inner trivial
  | case4 acc k b rest ih =>
    intro hacc
    rw [convert_to_lower_aux]
    exact ih hacc

theorem convert_aux_of_normal (acc l : PyDict) :
    NormalD l → (∀ k v, l.get? k = some v → acc.get? k = none) →
    convert_to_lower_aux acc l = acc.append l := by
  induction acc, l using convert_to_lower_aux.induct with
  | case1 acc =>
    intro _ _
    rw [convert_to_lower_aux, PyDict.append_nil]
  | case2 acc k s rest ih =>
    intro hl hdisj
    simp only [NormalD] at hl
    obtain ⟨hk, hv, hnone, hrest⟩ := hl
    have hs : pyLower s = s := hv
    have hacck : acc.get? k = none :=
      hdisj k (.str s) (by simp [PyDict.get?])
    rw [convert_to_lower_aux]
    rw [hk, hs] at ih ⊢
    rw [ih hrest ?_]
    · rw [PyDict.set_eq_append _ _ _ hacck, PyDict.append_assoc]
      simp [PyDict.append]
    · intro k' v' hk'
      have hkk' : k ≠ k' := by
        intro he
        rw [he] at hnone
        rw [hnone] at hk'
        exact Option.noConfusion hk'
      rw [PyDict.get?_set_ne _ _ _ _ hkk']
      exact hdisj k' v' (by simp [PyDict.get?, hkk', hk'])
  | case3 acc k d rest ih_inner ih =>
    intro hl hdisj
    simp only [NormalD] at hl
    obtain ⟨hk, hv, hnone, hrest⟩ := hl
    have hd : NormalD d := hv
    have hdfix : convert_to_lower_aux .nil d = d := by
      rw [ih_inner hd (fun _ _ _ => rfl)]
      rfl
    have hacck : acc.get? k = none :=
      hdisj k (.dict d) (by simp [PyDict.get?])
    rw [convert_to_lower_aux]
    rw [hk, hdfix] at ih ⊢
    rw [ih hrest ?_]
    · rw [PyDict.set_eq_append _ _ _ hacck, PyDict.append_assoc]
      simp [PyDict.append]
    · intro k' v' hk'
      have hkk' : k ≠ k' := by
        intro he
        rw [he] at hnone
        rw [hnone] at hk'
        exact Option.noConfusion hk'
      rw [PyDict.get?_set_ne _ _ _ _ hkk']
      exact hdisj k' v' (by simp [PyDict.get?, hkk', hk'])
  | case4 acc k b rest ih =>
    intro hl _
    simp only [NormalD] at hl
    exact hl.2.1.elim


/-! ## Lemmas about the batch map -/

theorem optMapM_cons_eq_some {f : α → Option β} {a : α} {l : List α}
    {out : List β} :
    optMapM f (a :: l) = some out ↔
      ∃ b bs, f a = some b ∧ optMapM f l = some bs ∧ out = b :: bs := by
  constructor
  · intro h
    rw [optMapM] at h
    cases hfa : f a with
    | none => rw [hfa] at h; exact Option.noConfusion h
    | some b =>
      rw [hfa] at h
      cases hrest : optMapM f l with
      | none => rw [hrest] at h; exact Option.noConfusion h
      | some bs =>
        rw [hrest] at h
        exact ⟨b, bs, rfl, rfl, (Option.some_inj.mp h).symm⟩
  · rintro ⟨b, bs, hb, hbs, rfl⟩
    rw [optMapM, hb, hbs]

theorem optMapM_length {f : α → Option β} :
    ∀ {l : List α} {out : List β}, optMapM f l = some out →
      out.length = l.length := by
  intro l
  induction l with
  | nil =>
    intro out h
    rw [optMapM] at h
    rw [← Option.some_inj.mp h]
    rfl
  | cons a as ih =>
    intro out h
    obtain ⟨b, bs, _, hbs, rfl⟩ := optMapM_cons_eq_some.mp h
    simp [ih hbs]

theorem optMapM_get {f : α → Option β} :
    ∀ {l : List α} {out : List β}, optMapM f l = some out →
      ∀ i (hi : i < l.length) (ho : i < out.length),
        f (l.get ⟨i, hi⟩) = some (out.get ⟨i, ho⟩) := by
  intro l
  induction l with
  | nil =>
    intro out h i hi
    exact absurd hi (by simp)
  | cons a as ih =>
    intro out h i hi ho
    obtain ⟨b, bs, hb, hbs, rfl⟩ := optMapM_cons_eq_some.mp h
    cases i with
    | zero => simpa using hb
    | succ j =>
      have hj : j < as.length := by simpa using hi
      have hjo : j < bs.length := by simpa using ho
      simpa using ih hbs j hj hjo

/-! ## Mixed-radix comparison of datetimes -/

theorem mixed_lt_of_lt {B a b r s : Nat} (h : a < b) (hr : r < B) :
    a * B + r < b * B + s :=
  calc a * B + r < a * B + B := by omega
    _ = (a + 1) * B := by ring
    _ ≤ b * B := Nat.mul_le_mul_right _ h
    _ ≤ b * B + s := Nat.le_add_right _ _

theorem mixed_lt {B a b r s : Nat} (hr : r < B) (hs : s < B) :
    a * B + r < b * B + s ↔ a < b ∨ (a = b ∧ r < s) := by
  constructor
  · intro h
    rcases Nat.lt_trichotomy a b with hlt | heq | hgt
    · exact Or.inl hlt
    · rw [heq] at h
      exact Or.inr ⟨heq, by omega⟩
    · have hc : b * B + s < a * B + r := mixed_lt_of_lt hgt hs
      omega
  · rintro (hlt | ⟨rfl, hlt⟩)
    · exact mixed_lt_of_lt hlt hr
    · omega

theorem mixed_le {B a b r s : Nat} (hr : r < B) (hs : s < B) :
    a * B + r ≤ b * B + s ↔ a < b ∨ (a = b ∧ r ≤ s) := by
  constructor
  · intro h
    rcases Nat.lt_trichotomy a b with hlt | heq | hgt
    · exact Or.inl hlt
    · rw [heq] at h
      exact Or.inr ⟨heq, by omega⟩
    · have hc : b * B + s < a * B + r := mixed_lt_of_lt hgt hs
      omega
  · rintro (hlt | ⟨rfl, hle⟩)
    · exact Nat.le_of_lt (mixed_lt_of_lt hlt hr)
    · omega

theorem mixed_eq {B a b r s : Nat} (hr : r < B) (hs : s < B) :
    a * B + r = b * B + s ↔ a = b ∧ r = s := by
  constructor
  · intro h
    rcases Nat.lt_trichotomy a b with hlt | heq | hgt
    · have hc : a * B + r < b * B + s := mixed_lt_of_lt hlt hr
      omega
    · rw [heq] at h
      exact ⟨heq, by omega⟩
    · have hc : b * B + s < a * B + r := mixed_lt_of_lt hgt hs
      omega
  · rintro ⟨rfl, rfl⟩
    rfl

/-- The date part of the mixed-radix key. -/
def dateKey (y m d : Nat) : Nat := (y * 13 + m) * 32 + d

/-- The time-of-day part of the mixed-radix key, in microseconds. -/
def timeKey (t : DateTime) : Nat :=
  ((t.hour * 60 + t.minute) * 60 + t.second) * 1000000 + t.usec

theorem key_decompose (t : DateTime) :
    t.key = dateKey t.year t.month t.day * 86400000000 + timeKey t := by
  unfold DateTime.key dateKey timeKey
  ring

theorem timeKey_lt (t : DateTime)
    (hh : t.hour ≤ 23) (hm : t.minute ≤ 59) (hs : t.second ≤ 59)
    (hu : t.usec ≤ 999999) : timeKey t < 86400000000 := by
  unfold timeKey
  have h1 : t.hour * 60 + t.minute ≤ 1439 := by omega
  have h2 : (t.hour * 60 + t.minute) * 60 + t.second ≤ 86399 := by
    have := Nat.mul_le_mul_right 60 h1
    omega
  have := Nat.mul_le_mul_right 1000000 h2
  omega

theorem dateKey_le (y m d y₂ m₂ d₂ : Nat)
    (hm : m < 13) (hm₂ : m₂ < 13) (hd : d < 32) (hd₂ : d₂ < 32) :
    dateKey y m d ≤ dateKey y₂ m₂ d₂ ↔
      y < y₂ ∨ (y = y₂ ∧ (m < m₂ ∨ (m = m₂ ∧ d ≤ d₂))) := by
  unfold dateKey
  rw [mixed_le hd hd₂, mixed_lt hm hm₂, mixed_eq hm hm₂]
  tauto

theorem dateKey_eq (y m d y₂ m₂ d₂ : Nat)
    (hm : m < 13) (hm₂ : m₂ < 13) (hd : d < 32) (hd₂ : d₂ < 32) :
    dateKey y m d = dateKey y₂ m₂ d₂ ↔ y = y₂ ∧ m = m₂ ∧ d = d₂ := by
  unfold dateKey
  rw [mixed_eq hd hd₂, mixed_eq hm hm₂]
  tauto

/-! ## Shape predicates (the record and table shapes of spec section 3) -/

/-- The field `fld` of `r` is absent, or a dict whose `country` field is
absent or a string. -/
def FieldIsDictWithStrCountry (r : PyDict) (fld : String) : Prop :=
  r.get? fld = none ∨
    ∃ d, r.get? fld = some (.dict d) ∧
      (d.get? "country" = none ∨ ∃ s, d.get? "country" = some (.str s))

/-- Every entry of the country table is a dict. -/
def CountriesDictShape (C : PyDict) : Prop :=
  ∀ k v, C.get? k = some v → ∃ e, v = .dict e

/-- Every entry of the country table is a dict whose `medical_advisory`
field, when present, is a string. -/
def CountriesAdvisoryShape (C : PyDict) : Prop :=
  ∀ k v, C.get? k = some v →
    ∃ e, v = .dict e ∧
      (e.get? "medical_advisory" = none ∨
        ∃ s, e.get? "medical_advisory" = some (.str s))

/-- The `visa` field of `r` is absent, or a dict whose `code` and `date`
fields are each absent or strings. -/
def VisaShape (r : PyDict) : Prop :=
  r.get? "visa" = none ∨
    ∃ d, r.get? "visa" = some (.dict d) ∧
      (d.get? "code" = none ∨ ∃ s, d.get? "code" = some (.str s)) ∧
      (d.get? "date" = none ∨ ∃ s, d.get? "date" = some (.str s))

/-- The string the `medical_advisory` lookup of `is_quarantine` comes
back with for country code `c`: empty for an unknown code, a missing
field, or a non-string field. -/
def advisoryStr (C : PyDict) (c : String) : String :=
  match C.get? c with
  | some (.dict e) =>
    match e.get? "medical_advisory" with
    | some (.str s) => s
    | _ => ""
  | _ => ""

/-- What the priority dispatch of `decide` promises for one record:
the label is the first rule that fired, and all earlier rules returned
`False`. -/
def LabelSpec (C : PyDict) (WP WN : List String) (now : DateTime)
    (r : PyDict) (lab : String) : Prop :=
  (lab = "Quarantine" ∧ is_quarantine C r = some true) ∨
  (lab = "Reject" ∧ is_quarantine C r = some false ∧
    is_reject C now r = some true) ∨
  (lab = "Secondary" ∧ is_quarantine C r = some false ∧
    is_reject C now r = some false ∧ is_secondary WP WN r = some true) ∨
  (lab = "Accept" ∧ is_quarantine C r = some false ∧
    is_reject C now r = some false ∧ is_secondary WP WN r = some false)

/-! ## Concrete fixtures for counterexamples and witnesses -/

/-- A one-country table: `alb` requires a visitor visa, no transit
visa, no medical advisory. -/
def albCountries : PyDict :=
  .cons "alb" (.dict (.cons "visitor_visa_required" (.str "1")
    (.cons "transit_visa_required" (.str "0")
      (.cons "medical_advisory" (.str "") .nil)))) .nil

/-- A complete, already-lowercase record: home country `alb`, reason
`visit`, well-formatted visa dated 2023-06-15. -/
def rec5 : PyDict :=
  .cons "passport" (.str "aaaaa-bbbbb-ccccc-ddddd-eeeee")
  (.cons "first_name" (.str "ann")
  (.cons "last_name" (.str "bee")
  (.cons "birth_date" (.str "1990-01-01")
  (.cons "home" (.dict (.cons "country" (.str "alb") .nil))
  (.cons "entry_reason" (.str "visit")
  (.cons "from" (.dict (.cons "country" (.str "alb") .nil))
  (.cons "visa" (.dict (.cons "code" (.str "abcde-fghij")
    (.cons "date" (.str "2023-06-15") .nil))) .nil)))))))

/-- Like `rec5` but with home country `xyz`, which is absent from
`albCountries`. -/
def recUnknown : PyDict :=
  .cons "passport" (.str "aaaaa-bbbbb-ccccc-ddddd-eeeee")
  (.cons "first_name" (.str "ann")
  (.cons "last_name" (.str "bee")
  (.cons "birth_date" (.str "1990-01-01")
  (.cons "home" (.dict (.cons "country" (.str "xyz") .nil))
  (.cons "entry_reason" (.str "visit")
  (.cons "from" (.dict (.cons "country" (.str "alb") .nil)) .nil))))))

/-- A record holding only a well-formatted visa dated 2022-06-15. -/
def recBoundary : PyDict :=
  .cons "visa" (.dict (.cons "code" (.str "abcde-fghij")
    (.cons "date" (.str "2022-06-15") .nil))) .nil

/-- Midnight, January 1, 2024. -/
def now1 : DateTime := ⟨2024, 1, 1, 0, 0, 0, 0⟩

/-- Midnight, January 1, 2026. -/
def now2 : DateTime := ⟨2026, 1, 1, 0, 0, 0, 0⟩

/-- 10:30 in the morning of June 15, 2024. -/
def nowMid : DateTime := ⟨2024, 6, 15, 10, 30, 0, 0⟩

/-- Noon on February 29 of the leap year 2024. -/
def nowFeb29 : DateTime := ⟨2024, 2, 29, 12, 0, 0, 0⟩

/-! ## C8 -/

/-- C8: normalization is idempotent — for every nested dict `d`,
`convert_to_lower (convert_to_lower d) = convert_to_lower d`. -/
theorem C8_convert_to_lower_idempotent (d : PyDict) :
    convert_to_lower (convert_to_lower d) = convert_to_lower d := by
  have h1 : NormalD (convert_to_lower d) := normalD_convert_aux _ _ trivial
  have h2 := convert_aux_of_normal PyDict.nil (convert_to_lower d) h1
    (fun k v _ => rfl)
  calc convert_to_lower (convert_to_lower d)
      = convert_to_lower_aux .nil (convert_to_lower d) := rfl
    _ = PyDict.nil.append (convert_to_lower d) := h2
    _ = convert_to_lower d := rfl

/-! ## C10 -/

/-- C10: there is an evaluation time — February 29 of a leap year — at
which `is_valid_visa` fails (raises, embedded as `none`) even on a
record whose visa code and date are well-formatted, because
`now.replace(year=now.year-2)` names a nonexistent calendar date. -/
theorem C10_feb29_two_years_ago_fails :
    ∃ (now : DateTime) (r : PyDict),
      now.Valid ∧ now.month = 2 ∧ now.day = 29 ∧ isLeap now.year = true ∧
      r.get? "visa" = some (.dict (.cons "code" (.str "abcde-fghij")
        (.cons "date" (.str "2022-06-15") .nil))) ∧
      valid_visa_format "abcde-fghij" = true ∧
      valid_date_format "2022-06-15" = true ∧
      DateTime.replaceYear nowFeb29 (nowFeb29.year - 2) = none ∧
      is_valid_visa now r = none := by
  refine ⟨nowFeb29, recBoundary, by decide, rfl, rfl, by decide, by decide,
    by decide, by decide, by decide, by decide⟩

/-! ## C5 -/

/-- C5 counterexample: `decide` is not independent of the evaluation
time — the same fully-loaded structures yield `["Accept"]` at the
start of 2024 and `["Reject"]` at the start of 2026, because
`is_valid_visa` consults the clock. -/
theorem C5_counterexample_time_dependent :
    decide [rec5] [] albCountries now1 = some ["Accept"] ∧
    decide [rec5] [] albCountries now2 = some ["Reject"] ∧
    decide [rec5] [] albCountries now1 ≠ decide [rec5] [] albCountries now2 := by
  refine ⟨by decide, by decide, by decide⟩

/-- C5 amended: `decide` is a pure, deterministic function of
(records, watchlist, country table, evaluation time): two evaluations
on equal already-loaded structures at an equal clock reading give
identical label lists.  (Independence of the clock reading is refuted
by the counterexample.) -/
theorem C5_decide_deterministic
    (records₁ records₂ watchlist₁ watchlist₂ : List PyDict)
    (countries₁ countries₂ : PyDict) (now₁ now₂ : DateTime)
    (hr : records₁ = records₂) (hw : watchlist₁ = watchlist₂)
    (hc : countries₁ = countries₂) (hn : now₁ = now₂) :
    decide records₁ watchlist₁ countries₁ now₁ =
      decide records₂ watchlist₂ countries₂ now₂ := by
  rw [hr, hw, hc, hn]

/-- Witness for C5: the determinism theorem applied at a concrete
batch. -/
theorem C5_decide_deterministic_witness :
    decide [rec5] [] albCountries now1 = decide [rec5] [] albCountries now1 :=
  C5_decide_deterministic [rec5] [rec5] [] [] albCountries albCountries
    now1 now1 rfl rfl rfl rfl

/-! ## Helper lemmas for the shape predicates -/

theorem getCountryOf_str_of_shape {r : PyDict} {fld : String}
    (h : FieldIsDictWithStrCountry r fld) :
    ∃ s, getCountryOf r fld = some (.str s) := by
  unfold getCountryOf
  rcases h with h | ⟨d, hd, hc | ⟨s, hs⟩⟩
  · rw [h]
    exact ⟨"", rfl⟩
  · refine ⟨"", ?_⟩
    simp only [hd, hc, Option.getD_none]
  · refine ⟨s, ?_⟩
    simp only [hd, hs, Option.getD_some]

theorem advisoryOf_total {C : PyDict} (hC : CountriesDictShape C)
    (s : String) : ∃ w, advisoryOf C (.str s) = some w := by
  unfold advisoryOf
  cases hE : C.get? s with
  | none =>
    refine ⟨.str "", ?_⟩
    simp only [hE]
  | some v =>
    obtain ⟨e, rfl⟩ := hC s v hE
    refine ⟨(e.get? "medical_advisory").getD (.str ""), ?_⟩
    simp only [hE]

/-! ## C1 -/

/-- C1 counterexample: for a record whose home country code `xyz` is
not `kan` and is absent from the table, `requires_visa` does not return
a result but raises (`COUNTRIES[home]` is direct indexing), so `decide`
fails on such a batch. -/
theorem C1_counterexample_unknown_home_raises :
    requires_visa (convert_to_lower albCountries) recUnknown = none ∧
    decide [recUnknown] [] albCountries now1 = none := by
  refine ⟨by decide, by decide⟩

/-- C1 amended: the tolerant default lookup holds for `is_quarantine`
(unknown `from`/`via` codes mean no advisory, so no quarantine and no
failure), but `requires_visa` raises — returns no result — whenever a
non-`kan` home country code is absent from the table, and `decide`
fails with it. -/
theorem C1_unknown_code_tolerance :
    (∀ (C r : PyDict) (f v : String),
      getCountryOf r "from" = some (.str f) →
      getCountryOf r "via" = some (.str v) →
      C.get? f = none → C.get? v = none →
      is_quarantine C r = some false) ∧
    (∀ (C r h : PyDict) (hs : String) (rv : PyVal),
      r.get? "home" = some (.dict h) →
      h.get? "country" = some (.str hs) →
      r.get? "entry_reason" = some rv →
      hs ≠ "kan" →
      C.get? hs = none →
      requires_visa C r = none) := by
  constructor
  · intro C r f v hf hv hCf hCv
    unfold is_quarantine advisoryOf
    simp only [hf, hv, hCf, hCv]
    rfl
  · intro C r h hs rv hhome hcountry hreason hne hC
    unfold requires_visa
    have he : (PyVal.str hs).eqStr "kan" = false := by
      simp [PyVal.eqStr, hne]
    simp only [hhome, hcountry, hreason, he, Bool.false_eq_true, if_false, hC]

/-- Witness for C1 amended: both parts applied at concrete inputs. -/
theorem C1_unknown_code_tolerance_witness :
    is_quarantine PyDict.nil PyDict.nil = some false ∧
    requires_visa PyDict.nil recUnknown = none := by
  constructor
  · exact C1_unknown_code_tolerance.1 PyDict.nil PyDict.nil "" ""
      (by decide) (by decide) rfl rfl
  · exact C1_unknown_code_tolerance.2 PyDict.nil recUnknown
      (.cons "country" (.str "xyz") .nil) "xyz" (.str "visit")
      (by decide) (by decide) (by decide) (by decide) rfl

/-! ## C2 -/

/-- C2 counterexample: rule predicates do raise on missing fields —
`is_secondary` on the empty record (no `passport`) raises instead of
treating the field as empty, and `requires_visa` raises on a record
whose `home` object lacks `country`. -/
theorem C2_counterexample_field_access_raises :
    is_secondary [] [] PyDict.nil = none ∧
    requires_visa PyDict.nil
      (PyDict.cons "home" (.dict (.cons "x" (.str "y") .nil)) .nil) = none := by
  refine ⟨by decide, by decide⟩

/-- C2 amended: `is_quarantine` and `is_valid_visa` default missing
fields to the empty string and never raise on field access (given
shape-conformant values and, for `is_valid_visa`, a successful
two-years-ago computation); the completeness check in `is_reject`
detects a missing top-level required field without raising, returning
`True`; but `is_secondary` raises when `passport` is absent and
`requires_visa` raises when `home.country` is absent. -/
theorem C2_missing_field_tolerance :
    (∀ (C r : PyDict), FieldIsDictWithStrCountry r "from" →
      FieldIsDictWithStrCountry r "via" → CountriesDictShape C →
      ∃ b, is_quarantine C r = some b) ∧
    (∀ (now : DateTime) (r : PyDict) (tya : DateTime), VisaShape r →
      now.replaceYear (now.year - 2) = some tya →
      ∃ b, is_valid_visa now r = some b) ∧
    (∀ (C : PyDict) (now : DateTime) (r : PyDict) (f : String),
      f ∈ REQUIRED_FIELDS → r.get? f = none →
      is_reject C now r = some true) ∧
    (∀ (WP WN : List String) (r : PyDict), r.get? "passport" = none →
      is_secondary WP WN r = none) ∧
    (∀ (C r h : PyDict), r.get? "home" = some (.dict h) →
      h.get? "country" = none → requires_visa C r = none) := by
  refine ⟨?_, ?_, ?_, ?_, ?_⟩
  · intro C r hf hv hC
    obtain ⟨f, hf⟩ := getCountryOf_str_of_shape hf
    obtain ⟨v, hv⟩ := getCountryOf_str_of_shape hv
    obtain ⟨fa, hfa⟩ := advisoryOf_total hC f
    obtain ⟨va, hva⟩ := advisoryOf_total hC v
    unfold is_quarantine
    refine ⟨fa.truthy || va.truthy, ?_⟩
    simp only [hf, hv, hfa, hva]
  · intro now r tya hshape htya
    unfold is_valid_visa
    rcases hshape with h | ⟨d, hd, hcode, hdate⟩
    · rw [h]
      exact ⟨false, rfl⟩
    · have hc : ∃ c, (d.get? "code").getD (.str "") = .str c := by
        rcases hcode with h | ⟨c, h⟩ <;> rw [h]
        · exact ⟨"", rfl⟩
        · exact ⟨c, rfl⟩
      obtain ⟨c, hc⟩ := hc
      by_cases hvf : valid_visa_format c
      · have hdt : ∃ dt, (d.get? "date").getD (.str "") = .str dt := by
          rcases hdate with h | ⟨dt, h⟩ <;> rw [h]
          · exact ⟨"", rfl⟩
          · exact ⟨dt, rfl⟩
        obtain ⟨dt, hdt⟩ := hdt
        by_cases hdf : valid_date_format dt
        · have hdf2 := hdf
          unfold valid_date_format at hdf2
          obtain ⟨⟨y, m, dd⟩, hp⟩ := Option.isSome_iff_exists.mp hdf2
          refine ⟨Decidable.decide (tya.key ≤ (midnight y m dd).key), ?_⟩
          simp only [hd, hc, hvf, if_true, hdt, hdf, htya, hp]
        · refine ⟨false, ?_⟩
          simp only [hd, hc, hvf, if_true, hdt, hdf, Bool.false_eq_true, if_false]
      · refine ⟨false, ?_⟩
        simp only [hd, hc, hvf, Bool.false_eq_true, if_false]
  · intro C now r f hf hnone
    have hcond :
        ¬ (REQUIRED_FIELDS.all fun fl =>
            ((r.get? fl).getD (.str "")).truthy) = true := by
      intro hall
      have h2 := List.all_eq_true.mp hall f hf
      rw [hnone] at h2
      simp [PyVal.truthy] at h2
    unfold is_reject
    rw [if_pos hcond]
  · intro WP WN r hp
    unfold is_secondary
    rw [hp]
  · intro C r h hh hc
    unfold requires_visa
    simp only [hh, hc]

/-- Witness for C2 amended: all five parts applied at concrete
inputs. -/
theorem C2_missing_field_tolerance_witness :
    (∃ b, is_quarantine PyDict.nil PyDict.nil = some b) ∧
    (∃ b, is_valid_visa now1 PyDict.nil = some b) ∧
    is_reject PyDict.nil now1 PyDict.nil = some true ∧
    is_secondary [] [] (PyDict.cons "x" (.str "y") .nil) = none ∧
    requires_visa PyDict.nil
      (PyDict.cons "home" (.dict PyDict.nil) .nil) = none := by
  refine ⟨?_, ?_, ?_, ?_, ?_⟩
  · exact C2_missing_field_tolerance.1 PyDict.nil PyDict.nil
      (Or.inl rfl) (Or.inl rfl) (fun k v h => Option.noConfusion h)
  · exact C2_missing_field_tolerance.2.1 now1 PyDict.nil
      ⟨2022, 1, 1, 0, 0, 0, 0⟩ (Or.inl rfl) (by decide)
  · exact C2_missing_field_tolerance.2.2.1 PyDict.nil now1 PyDict.nil
      "passport" (by decide) rfl
  · exact C2_missing_field_tolerance.2.2.2.1 [] []
      (PyDict.cons "x" (.str "y") .nil) (by decide)
  · exact C2_missing_field_tolerance.2.2.2.2 PyDict.nil
      (PyDict.cons "home" (.dict PyDict.nil) .nil) PyDict.nil rfl rfl

/-! ## C7 -/

theorem advisoryOf_eq_advisoryStr {C : PyDict}
    (hC : CountriesAdvisoryShape C) (c : String) :
    advisoryOf C (.str c) = some (.str (advisoryStr C c)) := by
  unfold advisoryOf advisoryStr
  cases hE : C.get? c with
  | none => simp only [hE]
  | some v =>
    obtain ⟨e, rfl, hadv⟩ := hC c v hE
    rcases hadv with h | ⟨a, h⟩ <;>
      simp only [hE, h, Option.getD_none, Option.getD_some]

/-- A table with one country `sqq` carrying a medical advisory. -/
def sarsCountries : PyDict :=
  .cons "sqq" (.dict (.cons "medical_advisory" (.str "sars") .nil)) .nil

/-- A record coming from `sqq`, with no `via`. -/
def recFrom : PyDict :=
  .cons "from" (.dict (.cons "country" (.str "sqq") .nil)) .nil

/-- C7: `is_quarantine` is true iff the table advisory of the `from`
country or of the `via` country (each country code defaulting to the
empty string when the field is absent) is a non-empty string, and the
`home` field is never considered — overwriting it leaves the result
unchanged. -/
theorem C7_is_quarantine_characterization
    (C r : PyDict) (f v : String)
    (hf : getCountryOf r "from" = some (.str f))
    (hv : getCountryOf r "via" = some (.str v))
    (hC : CountriesAdvisoryShape C) :
    is_quarantine C r =
      some (Decidable.decide (advisoryStr C f ≠ "") ||
            Decidable.decide (advisoryStr C v ≠ "")) ∧
    ∀ h, is_quarantine C (r.set "home" h) = is_quarantine C r := by
  constructor
  · unfold is_quarantine
    simp only [hf, hv, advisoryOf_eq_advisoryStr hC]
    rfl
  · intro h
    have h1 : getCountryOf (r.set "home" h) "from" = getCountryOf r "from" := by
      unfold getCountryOf
      rw [PyDict.get?_set_ne _ _ _ _ (by decide)]
    have h2 : getCountryOf (r.set "home" h) "via" = getCountryOf r "via" := by
      unfold getCountryOf
      rw [PyDict.get?_set_ne _ _ _ _ (by decide)]
    unfold is_quarantine
    rw [h1, h2]

/-- Witness for C7: the characterization applied to a record coming
from a country with an advisory. -/
theorem C7_is_quarantine_characterization_witness :
    is_quarantine sarsCountries recFrom =
      some (Decidable.decide (advisoryStr sarsCountries "sqq" ≠ "") ||
            Decidable.decide (advisoryStr sarsCountries "" ≠ "")) ∧
    ∀ h, is_quarantine sarsCountries (recFrom.set "home" h) =
      is_quarantine sarsCountries recFrom := by
  refine C7_is_quarantine_characterization sarsCountries recFrom "sqq" ""
    (by decide) (by decide) ?_
  intro k v h
  simp only [sarsCountries, PyDict.get?] at h
  by_cases hk : "sqq" = k
  · rw [if_pos hk] at h
    exact ⟨_, (Option.some_inj.mp h).symm, Or.inr ⟨"sars", rfl⟩⟩
  · rw [if_neg hk] at h
    exact Option.noConfusion h

/-! ## C4 -/

theorem decideRecord_spec {C : PyDict} {WP WN : List String}
    {now : DateTime} {r : PyDict} {lab : String}
    (h : decideRecord C WP WN now r = some lab) :
    LabelSpec C WP WN now r lab := by
  unfold decideRecord at h
  cases hq : is_quarantine C r with
  | none =>
    simp only [hq] at h
    exact Option.noConfusion h
  | some bq =>
    cases bq with
    | true =>
      simp only [hq] at h
      exact Or.inl ⟨(Option.some_inj.mp h).symm, hq⟩
    | false =>
      simp only [hq] at h
      cases hr : is_reject C now r with
      | none =>
        simp only [hr] at h
        exact Option.noConfusion h
      | some br =>
        cases br with
        | true =>
          simp only [hr] at h
          exact Or.inr (Or.inl ⟨(Option.some_inj.mp h).symm, hq, hr⟩)
        | false =>
          simp only [hr] at h
          cases hs : is_secondary WP WN r with
          | none =>
            simp only [hs] at h
            exact Option.noConfusion h
          | some bs =>
            cases bs with
            | true =>
              simp only [hs] at h
              exact Or.inr (Or.inr (Or.inl
                ⟨(Option.some_inj.mp h).symm, hq, hr, hs⟩))
            | false =>
              simp only [hs] at h
              exact Or.inr (Or.inr (Or.inr
                ⟨(Option.some_inj.mp h).symm, hq, hr, hs⟩))

/-- C4 counterexample: a batch on which `decide` produces no label list
at all (the unknown home country `xyz` makes `requires_visa` raise), so
not every input batch yields one label per record. -/
theorem C4_counterexample_no_labels :
    decide [recUnknown] [] albCountries now1 = none := by decide

/-- C4 amended: whenever `decide` returns a list (no rule predicate
raised), it has exactly one label per record, in input order, each
label one of the four, and each label is explained by the strict
priority order Quarantine > Reject > Secondary with first match
winning and `"Accept"` as the default. -/
theorem C4_labels_priority_order
    (records watchlist : List PyDict) (countries : PyDict)
    (now : DateTime) (labels : List String)
    (h : decide records watchlist countries now = some labels) :
    labels.length = records.length ∧
    ∃ C WP WN, set_global_vars watchlist countries = some (C, WP, WN) ∧
      ∀ i (hi : i < records.length) (ho : i < labels.length),
        labels.get ⟨i, ho⟩ ∈
          (["Quarantine", "Reject", "Secondary", "Accept"] : List String) ∧
        LabelSpec C WP WN now (convert_to_lower (records.get ⟨i, hi⟩))
          (labels.get ⟨i, ho⟩) := by
  unfold decide at h
  cases hsg : set_global_vars watchlist countries with
  | none =>
    simp only [hsg] at h
    exact Option.noConfusion h
  | some trip =>
    obtain ⟨C, WP, WN⟩ := trip
    simp only [hsg] at h
    have hlen := optMapM_length h
    rw [List.length_map] at hlen
    refine ⟨hlen, C, WP, WN, rfl, ?_⟩
    intro i hi ho
    have hg := optMapM_get h i (by simpa using hi) ho
    rw [List.get_map] at hg
    have hspec := decideRecord_spec hg
    refine ⟨?_, hspec⟩
    rcases hspec with ⟨hl, _⟩ | ⟨hl, _, _⟩ | ⟨hl, _, _, _⟩ | ⟨hl, _, _, _⟩ <;>
      rw [hl] <;> decide

/-- Witness for C4: the batch `[rec5]` is accepted and the conclusion
holds for it. -/
theorem C4_labels_priority_order_witness :
    (["Accept"] : List String).length = ([rec5] : List PyDict).length ∧
    ∃ C WP WN, set_global_vars [] albCountries = some (C, WP, WN) ∧
      ∀ i (hi : i < ([rec5] : List PyDict).length)
        (ho : i < (["Accept"] : List String).length),
        (["Accept"] : List String).get ⟨i, ho⟩ ∈
          (["Quarantine", "Reject", "Secondary", "Accept"] : List String) ∧
        LabelSpec C WP WN now1
          (convert_to_lower (([rec5] : List PyDict).get ⟨i, hi⟩))
          ((["Accept"] : List String).get ⟨i, ho⟩) :=
  C4_labels_priority_order [rec5] [] albCountries now1 ["Accept"] (by decide)

/-! ## C9 -/

/-- C9: the decision never depends on the passport string beyond
non-emptiness and watchlist membership — two records that agree on
every other field and hold non-empty, non-watchlisted passports get the
same label; in particular a malformed passport format never by itself
causes a rejection (`valid_passport_format` does not occur in the
decision path). -/
theorem C9_decision_independent_of_passport
    (C : PyDict) (WP WN : List String) (now : DateTime)
    (r₁ r₂ : PyDict) (s₁ s₂ : String)
    (hagree : ∀ k, k ≠ "passport" → r₁.get? k = r₂.get? k)
    (hp₁ : r₁.get? "passport" = some (.str s₁))
    (hp₂ : r₂.get? "passport" = some (.str s₂))
    (hne₁ : s₁ ≠ "") (hne₂ : s₂ ≠ "")
    (hw₁ : WP.contains (pyLower s₁) = false)
    (hw₂ : WP.contains (pyLower s₂) = false) :
    decideRecord C WP WN now r₁ = decideRecord C WP WN now r₂ := by
  have hfrom := hagree "from" (by decide)
  have hvia := hagree "via" (by decide)
  have hhome := hagree "home" (by decide)
  have hreason := hagree "entry_reason" (by decide)
  have hfn := hagree "first_name" (by decide)
  have hln := hagree "last_name" (by decide)
  have hbd := hagree "birth_date" (by decide)
  have hvisa := hagree "visa" (by decide)
  have hq : is_quarantine C r₁ = is_quarantine C r₂ := by
    unfold is_quarantine getCountryOf
    rw [hfrom, hvia]
  have hrv : requires_visa C r₁ = requires_visa C r₂ := by
    unfold requires_visa
    rw [hhome, hreason]
  have hvv : is_valid_visa now r₁ = is_valid_visa now r₂ := by
    unfold is_valid_visa
    rw [hvisa]
  have hall : (REQUIRED_FIELDS.all fun f => ((r₁.get? f).getD (.str "")).truthy) =
      (REQUIRED_FIELDS.all fun f => ((r₂.get? f).getD (.str "")).truthy) := by
    simp only [REQUIRED_FIELDS, List.all_cons, List.all_nil]
    rw [hfn, hln, hbd, hhome, hreason, hfrom, hp₁, hp₂]
    simp only [Option.getD_some, PyVal.truthy]
    simp [hne₁, hne₂]
  have hsec : is_secondary WP WN r₁ = is_secondary WP WN r₂ := by
    unfold is_secondary
    simp only [hp₁, hp₂, hfn, hln]
    cases hF : r₂.get? "first_name" with
    | none => rfl
    | some fv =>
      cases fv with
      | str f =>
        cases hL : r₂.get? "last_name" with
        | none => rfl
        | some lv =>
          cases lv with
          | str l => rw [hw₁, hw₂]
          | dict dd => rfl
          | other b => rfl
      | dict dd => rfl
      | other b => rfl
  have hrej : is_reject C now r₁ = is_reject C now r₂ := by
    unfold is_reject
    rw [hall, hrv, hvv]
  unfold decideRecord
  rw [hq, hrej, hsec]

/-- Witness for C9: two singleton records differing only in their
non-empty, non-watchlisted passports get the same label. -/
theorem C9_decision_independent_of_passport_witness :
    decideRecord PyDict.nil ["zzzzz"] [] now1
        (PyDict.cons "passport" (.str "aaaaa") .nil) =
      decideRecord PyDict.nil ["zzzzz"] [] now1
        (PyDict.cons "passport" (.str "bbbbb") .nil) := by
  refine C9_decision_independent_of_passport PyDict.nil ["zzzzz"] [] now1
    _ _ "aaaaa" "bbbbb" ?_ (by decide) (by decide) (by decide) (by decide)
    (by decide) (by decide)
  intro k hk
  simp only [PyDict.get?]
  rw [if_neg (fun h => hk h.symm), if_neg (fun h => hk h.symm)]

/-! ## C3 -/

theorem dateKey_lt (y m d y₂ m₂ d₂ : Nat)
    (hm : m < 13) (hm₂ : m₂ < 13) (hd : d < 32) (hd₂ : d₂ < 32) :
    dateKey y m d < dateKey y₂ m₂ d₂ ↔
      y < y₂ ∨ (y = y₂ ∧ (m < m₂ ∨ (m = m₂ ∧ d < d₂))) := by
  unfold dateKey
  rw [mixed_lt hd hd₂, mixed_lt hm hm₂, mixed_eq hm hm₂]
  tauto

theorem daysInMonth_le (y m : Nat) : daysInMonth y m ≤ 31 := by
  unfold daysInMonth
  split_ifs <;> omega

theorem parse3_bounds {l : List Char} {y m d : Nat}
    (h : parse3 l = some (y, m, d)) :
    1 ≤ y ∧ 1 ≤ m ∧ m ≤ 12 ∧ 1 ≤ d ∧ d ≤ daysInMonth y m := by
  simp only [parse3] at h
  split at h
  · split at h
    · split at h
      · rename_i hcond
        simp only [Option.some_inj, Prod.mk.injEq] at h
        obtain ⟨rfl, rfl, rfl⟩ := h
        obtain ⟨h1, h2, h3, h4, h5, h6, h7, h8, h9, h10, h11, h12, h13⟩ :=
          hcond
        exact ⟨h12, h6, h7, h11, h13⟩
      · exact Option.noConfusion h
    · exact Option.noConfusion h
  · exact Option.noConfusion h

/-- C3 counterexample: at the evaluation time 10:30 on 2024-06-15, a
well-formatted visa dated exactly two calendar years before — namely
2022-06-15 — is judged invalid, because the comparison keeps the
time of day of `now`; the boundary is therefore not inclusive. -/
theorem C3_counterexample_boundary_not_inclusive :
    nowMid.year - 2 = 2022 ∧ nowMid.month = 6 ∧ nowMid.day = 15 ∧
    parse3 ("2022-06-15").data = some (2022, 6, 15) ∧
    valid_visa_format "abcde-fghij" = true ∧
    valid_date_format "2022-06-15" = true ∧
    is_valid_visa nowMid recBoundary = some false := by
  refine ⟨rfl, rfl, rfl, by decide, by decide, by decide, by decide⟩

theorem timeKey_midnight (y m d : Nat) : timeKey (midnight y m d) = 0 := by
  simp [timeKey, midnight]

theorem key_le_midnight_iff (t : DateTime) (y m d : Nat)
    (htm : t.month < 13) (htd : t.day < 32) (hm : m < 13) (hd : d < 32)
    (hh : t.hour ≤ 23) (hmi : t.minute ≤ 59) (hs : t.second ≤ 59)
    (hu : t.usec ≤ 999999) :
    (t.key ≤ (midnight y m d).key) ↔
      ((t.year < y ∨ (t.year = y ∧ (t.month < m ∨ (t.month = m ∧ t.day < d)))) ∨
       (t.year = y ∧ t.month = m ∧ t.day = d ∧
        t.hour = 0 ∧ t.minute = 0 ∧ t.second = 0 ∧ t.usec = 0)) := by
  have hmy : (midnight y m d).year = y := rfl
  have hmm : (midnight y m d).month = m := rfl
  have hmd : (midnight y m d).day = d := rfl
  have hmt : timeKey (midnight y m d) = 0 := timeKey_midnight y m d
  rw [key_decompose t, key_decompose (midnight y m d), hmy, hmm, hmd, hmt]
  rw [mixed_le (timeKey_lt t hh hmi hs hu) (by omega)]
  rw [dateKey_lt _ _ _ _ _ _ htm hm htd hd, dateKey_eq _ _ _ _ _ _ htm hm htd hd]
  have hiff : (timeKey t ≤ 0) ↔
      (t.hour = 0 ∧ t.minute = 0 ∧ t.second = 0 ∧ t.usec = 0) := by
    unfold timeKey
    omega
  rw [hiff]
  simp only [and_assoc]

/-- C3 amended: for a well-formatted visa, `is_valid_visa` returns the
comparison of the visa date at midnight against `now` with its year
lowered by two, keeping the clock time: the visa is valid iff its date
is strictly after the date two calendar years before `now`, or equal to
it and the evaluation happens exactly at midnight.  (The boundary is
computed by calendar-year subtraction, but it is inclusive only at
midnight.) -/
theorem C3_visa_two_year_boundary
    (now : DateTime) (r visa : PyDict) (code date : String)
    (tya : DateTime) (y m d : Nat)
    (hval : now.Valid)
    (hv : r.get? "visa" = some (.dict visa))
    (hcode : visa.get? "code" = some (.str code))
    (hdate : visa.get? "date" = some (.str date))
    (hcf : valid_visa_format code = true)
    (hp : parse3 date.data = some (y, m, d))
    (htya : now.replaceYear (now.year - 2) = some tya) :
    ∃ b, is_valid_visa now r = some b ∧
      (b = true ↔
        ((now.year - 2 < y ∨
          (now.year - 2 = y ∧ (now.month < m ∨ (now.month = m ∧ now.day < d)))) ∨
         (now.year - 2 = y ∧ now.month = m ∧ now.day = d ∧
          now.hour = 0 ∧ now.minute = 0 ∧ now.second = 0 ∧ now.usec = 0))) := by
  have hdf : valid_date_format date = true := by
    unfold valid_date_format
    rw [hp]
    rfl
  have heval : is_valid_visa now r =
      some (Decidable.decide (tya.key ≤ (midnight y m d).key)) := by
    unfold is_valid_visa
    simp only [hv, hcode, Option.getD_some, hcf, if_true, hdate, hdf, htya, hp]
  have htya2 : tya = { now with year := now.year - 2 } := by
    unfold DateTime.replaceYear at htya
    split at htya
    · exact (Option.some_inj.mp htya).symm
    · exact Option.noConfusion htya
  subst htya2
  refine ⟨_, heval, ?_⟩
  rw [decide_eq_true_iff]
  obtain ⟨hy1, hy2, hm1, hm2, hd1, hd2, hh, hmi, hse, hus⟩ := hval
  obtain ⟨py, pm1, pm2, pd1, pd2⟩ := parse3_bounds hp
  have p1 : ({ now with year := now.year - 2 } : DateTime).year = now.year - 2 := rfl
  have p2 : ({ now with year := now.year - 2 } : DateTime).month = now.month := rfl
  have p3 : ({ now with year := now.year - 2 } : DateTime).day = now.day := rfl
  have p4 : ({ now with year := now.year - 2 } : DateTime).hour = now.hour := rfl
  have p5 : ({ now with year := now.year - 2 } : DateTime).minute = now.minute := rfl
  have p6 : ({ now with year := now.year - 2 } : DateTime).second = now.second := rfl
  have p7 : ({ now with year := now.year - 2 } : DateTime).usec = now.usec := rfl
  have hkey := key_le_midnight_iff ({ now with year := now.year - 2 }) y m d
    (by rw [p2]; omega) (by rw [p3]; have := daysInMonth_le now.year now.month; omega)
    (by omega) (by have := daysInMonth_le y m; omega)
    (by rw [p4]; omega) (by rw [p5]; omega) (by rw [p6]; omega) (by rw [p7]; omega)
  rw [p1, p2, p3, p4, p5, p6, p7] at hkey
  exact hkey

/-- Witness for C3: the boundary characterization applied at the
concrete evaluation time 10:30 on 2024-06-15. -/
theorem C3_visa_two_year_boundary_witness :
    ∃ b, is_valid_visa nowMid recBoundary = some b ∧
      (b = true ↔
        ((nowMid.year - 2 < 2022 ∨
          (nowMid.year - 2 = 2022 ∧
            (nowMid.month < 6 ∨ (nowMid.month = 6 ∧ nowMid.day < 15)))) ∨
         (nowMid.year - 2 = 2022 ∧ nowMid.month = 6 ∧ nowMid.day = 15 ∧
          nowMid.hour = 0 ∧ nowMid.minute = 0 ∧ nowMid.second = 0 ∧
          nowMid.usec = 0))) :=
  C3_visa_two_year_boundary nowMid recBoundary
    (.cons "code" (.str "abcde-fghij") (.cons "date" (.str "2022-06-15") .nil))
    "abcde-fghij" "2022-06-15" ⟨2022, 6, 15, 10, 30, 0, 0⟩ 2022 6 15
    (by decide) (by decide) (by decide) (by decide) (by decide) (by decide)
    (by decide)

/-! ## C6 -/

/-- The date format as the spec words it: `YYYY-MM-DD` with a 4-digit
year, a 2-digit month `01`-`12` and a 2-digit day valid for that month
and year.  Written only for comparison with `valid_date_format`. -/
def spec_date_format (s : String) : Bool :=
  match s.data with
  | [y1, y2, y3, y4, '-', m1, m2, '-', d1, d2] =>
    [y1, y2, y3, y4, m1, m2, d1, d2].all Char.isDigit &&
      (let y := natOfDigits [y1, y2, y3, y4]
       let m := natOfDigits [m1, m2]
       let d := natOfDigits [d1, d2]
       Decidable.decide (1 ≤ y) && Decidable.decide (1 ≤ m) &&
       Decidable.decide (m ≤ 12) && Decidable.decide (1 ≤ d) &&
       Decidable.decide (d ≤ daysInMonth y m))
  | _ => false

/-- C6 counterexample: `strptime` accepts unpadded month and day
numbers, so `valid_date_format` holds of `"2021-2-3"`, which does not
have a 2-digit month and day. -/
theorem C6_counterexample_single_digit_month :
    valid_date_format "2021-2-3" = true ∧
    spec_date_format "2021-2-3" = false := by
  refine ⟨by decide, by decide⟩

theorem takeWhile_middle {p : Char → Bool} :
    ∀ (l1 : List Char) (x : Char) (l2 : List Char),
      (∀ c ∈ l1, p c = true) → p x = false →
      (l1 ++ x :: l2).takeWhile p = l1 ∧
      (l1 ++ x :: l2).dropWhile p = x :: l2 := by
  intro l1
  induction l1 with
  | nil =>
    intro x l2 _ hx
    simp [List.takeWhile_cons, List.dropWhile_cons, hx]
  | cons c t ih =>
    intro x l2 hall hx
    have hc : p c = true := hall c (by simp)
    have ht := ih x l2 (fun c h => hall c (by simp [h])) hx
    simp [List.takeWhile_cons, List.dropWhile_cons, hc, ht.1, ht.2]

theorem isDigit_ne_dash {c : Char} (h : c.isDigit = true) :
    (c != '-') = true := by
  by_cases hc : c = '-'
  · subst hc
    exact absurd h (by decide)
  · simp [bne_iff_ne]
    exact hc

/-- C6 amended: `valid_date_format s` is true iff `s` decomposes as
`year-month-day` with a 4-digit year of value at least 1, a month of 1
or 2 digits with value `1..12` (zero-padding optional), and a day of 1
or 2 digits with a value valid for that month and year; it is total, so
no exception escapes. -/
theorem C6_valid_date_format_characterization (s : String) :
    valid_date_format s = true ↔
      ∃ ys ms ds : List Char,
        s.data = ys ++ '-' :: (ms ++ '-' :: ds) ∧
        ys.length = 4 ∧ (∀ c ∈ ys, c.isDigit = true) ∧
        1 ≤ ms.length ∧ ms.length ≤ 2 ∧ (∀ c ∈ ms, c.isDigit = true) ∧
        1 ≤ ds.length ∧ ds.length ≤ 2 ∧ (∀ c ∈ ds, c.isDigit = true) ∧
        1 ≤ natOfDigits ys ∧
        1 ≤ natOfDigits ms ∧ natOfDigits ms ≤ 12 ∧
        1 ≤ natOfDigits ds ∧
        natOfDigits ds ≤ daysInMonth (natOfDigits ys) (natOfDigits ms) := by
  constructor
  · intro h
    unfold valid_date_format at h
    rw [Option.isSome_iff_exists] at h
    obtain ⟨⟨y, m, d⟩, hp⟩ := h
    simp only [parse3] at hp
    split at hp
    · rename_i rest hdrop
      split at hp
      · rename_i ms ds hspan
        split at hp
        · rename_i hcond
          obtain ⟨h1, h2, h3, h4, h5, h6, h7, h8, h9, h10, h11, h12, h13⟩ :=
            hcond
          have hdec : s.data = s.data.take 4 ++ '-' :: (ms ++ '-' :: ds) := by
            have ha : s.data = s.data.take 4 ++ s.data.drop 4 :=
              (List.take_append_drop 4 s.data).symm
            have hb : rest = ms ++ '-' :: ds := by
              have hc := List.span_eq_take_drop (· != '-') rest
              rw [hspan] at hc
              have hc1 : ms = rest.takeWhile (· != '-') :=
                congrArg Prod.fst hc
              have hc2 : '-' :: ds = rest.dropWhile (· != '-') :=
                congrArg Prod.snd hc
              rw [hc1, hc2]
              exact (List.takeWhile_append_dropWhile _ _).symm
            rw [hdrop, hb] at ha
            exact ha
          exact ⟨s.data.take 4, ms, ds, hdec, h1,
            List.all_eq_true.mp h2, h3, h4, List.all_eq_true.mp h5,
            h8, h9, List.all_eq_true.mp h10, h12, h6, h7, h11, h13⟩
        · exact Option.noConfusion hp
      · exact Option.noConfusion hp
    · exact Option.noConfusion hp
  · rintro ⟨ys, ms, ds, hdata, hylen, hyall, hml1, hml2, hmall, hdl1, hdl2,
      hdall, hy1, hm1, hm2, hd1, hd2⟩
    unfold valid_date_format
    have e1 : s.data.take 4 = ys := by
      rw [hdata]
      exact List.take_left' hylen
    have e2 : s.data.drop 4 = '-' :: (ms ++ '-' :: ds) := by
      rw [hdata]
      exact List.drop_left' hylen
    have e3 : (ms ++ '-' :: ds).span (· != '-') = (ms, '-' :: ds) := by
      rw [List.span_eq_take_drop]
      obtain ⟨ht, hd⟩ := takeWhile_middle ms '-' ds
        (fun c hc => isDigit_ne_dash (hmall c hc)) (by decide)
      rw [ht, hd]
    simp only [parse3, e1, e2, e3]
    rw [if_pos]
    · rfl
    · exact ⟨hylen, List.all_eq_true.mpr hyall, hml1, hml2,
        List.all_eq_true.mpr hmall, hm1, hm2, hdl1, hdl2,
        List.all_eq_true.mpr hdall, hd1, hy1, hd2⟩

end Papers
